import Mathlib

/-!
# Verification of the HealthDashboard core

A shallow embedding of the repository's two source files:

* `logs.py` — the log normalizer: a day-label parser (`day_re = "Day\s+(\d+)"`,
  case-insensitive, `re.search` semantics), a fixed column remapping
  (`header_to_field`), and the orchestrating `main` pipeline.
* `mcp_server.py` — the daily-log upsert engine (log weight / calorie / cardio /
  mood) and the aggregation queries (BMI trend, daily summary, today's calorie
  total, food listing), with the PostgreSQL store modelled as explicit state.

Calendar dates are modelled as day numbers (days since 1970-01-01, computed
from a civil date by the standard era-based algorithm), so pandas'
`to_datetime(start) + to_timedelta(n - 1, "d")` and SQL date arithmetic both
become integer arithmetic.  JSON numbers are modelled as `Rat` (the code only
stores, adds and compares them, so exact rationals are a faithful carrier).
-/

namespace HealthDash

/-! ## Calendar dates -/

/-- Day number (days since 1970-01-01) of the civil date `y-m-d`, for years
`≥ 1`.  Standard era-based civil-to-days computation; used to give meaning to
the concrete date constants of the repository (`dt.date(2025, 4, 8)` in
`logs.py`). -/
def civilDays (y m d : Nat) : Int :=
  let y2 := if m ≤ 2 then y - 1 else y
  let era := y2 / 400
  let yoe := y2 % 400
  let mp := (m + 9) % 12
  let doy := (153 * mp + 2) / 5 + (d - 1)
  let doe := yoe * 365 + yoe / 4 - yoe / 100 + doy
  ((era * 146097 + doe : Nat) : Int) - 719468

/-- `logs.py` line 7: `start_date = dt.date(2025, 4, 8)`. -/
def start_date : Int := civilDays 2025 4 8

/-! ## Day-label parser (`logs.py` line 44)

`day_re = re.compile(r"Day\s+(\d+)", re.I)` used through pandas
`str.contains` / `str.extract`, i.e. `re.search` semantics: the first position
where the pattern matches, and the first capture group of that match.  `\s+`
is greedy but the whitespace and digit classes are disjoint, so a match at a
position is: the letters `d a y` (case-insensitive), at least one whitespace
character, then at least one digit; the captured group is the maximal digit
run. -/

/-- ASCII whitespace characters matched by `\s`. -/
def isSpaceChar (c : Char) : Bool :=
  c = ' ' || c = '\t' || c = '\n' || c = '\r' || c = '\x0b' || c = '\x0c'

/-- Value of a digit string, as `int()` reads the capture group. -/
def digitsToNat (ds : List Char) : Nat :=
  ds.foldl (fun a c => 10 * a + (c.toNat - '0'.toNat)) 0

/-- Try to match `Day\s+(\d+)` (case-insensitively) at the head of the
character list; on success return the captured day index. -/
def matchDayAt : List Char → Option Nat
  | c1 :: c2 :: c3 :: c4 :: rest =>
    if c1.toLower = 'd' ∧ c2.toLower = 'a' ∧ c3.toLower = 'y' ∧ isSpaceChar c4 then
      let ds := (rest.dropWhile isSpaceChar).takeWhile Char.isDigit
      if ds = [] then none else some (digitsToNat ds)
    else none
  | _ => none

/-- `re.search`: try `matchDayAt` at every position, left to right. -/
def searchDay : List Char → Option Nat
  | [] => none
  | c :: cs =>
    match matchDayAt (c :: cs) with
    | some n => some n
    | none => searchDay cs

/-- Day index extracted from a label, when the label matches `day_re`
anywhere (`str.contains` is true exactly when this is `some`). -/
def dayExtract (s : String) : Option Nat :=
  searchDay s.data

/-! ## Tables and the normalizer (`logs.py` `main`) -/

/-- One input row: an association of column name to cell text.  A column
present in the table but absent from the row models a NaN cell. -/
abbrev Row := List (String × String)

/-- Cell of a row at a column. -/
def cell (r : Row) (c : String) : Option String :=
  r.lookup c

/-- The filter value of the `Day` column: `astype(str)` renders a NaN cell as
the string `"nan"` (which never matches `day_re`). -/
def dayLabel (r : Row) : String :=
  (cell r "Day").getD "nan"

/-- An input table: the column names and the ordered rows. -/
structure Table where
  columns : List String
  rows : List Row

/-- `logs.py` lines 9–17: the fixed source-column → canonical-field mapping,
in insertion order. -/
def header_to_field : List (String × String) :=
  [("Weight", "weight_kg_txt"),
   ("Budgeted kcal", "kcal_budgeted_txt"),
   ("Estimated kcal", "kcal_estimated_txt"),
   ("Exercise", "exercise_txt"),
   ("Fasted Cardio", "fasted_cardio_txt"),
   ("Mood/Energy", "mood_txt"),
   ("Notes", "notes")]

/-- A canonical daily record: the derived `log_date`, then the canonical
fields in output-column order (`log_date` is always the first output column;
the remaining columns follow in the order of `header_to_field`).  A field's
value is `none` for a NaN cell. -/
structure CanonRecord where
  log_date : Int
  fields : List (String × Option String)
deriving DecidableEq

/-- Outcome classification of one normalizer run: the structural error
(`'Day' column not found`), the empty-result warning (`No rows matched`), or
a normal run. -/
inductive NormStatus where
  | structuralInput
  | emptyResult
  | ok
deriving DecidableEq

/-- Result of a normalizer run: the ordered records, the outcome
classification, and the skip notes (one canonical field name per mapped
source column missing from the table). -/
structure NormResult where
  records : List CanonRecord
  status : NormStatus
  skipped : List String
deriving DecidableEq

/-- The canonical record built from one matching row (`logs.py` lines 59–74):
`log_date = start_date + (day_num - 1)` days, then one output column per
mapped source column present in the table. -/
def rowRecord (cols : List String) (r : Row) : CanonRecord :=
  { log_date := start_date + (((dayExtract (dayLabel r)).getD 0 : Int) - 1),
    fields := (header_to_field.filter (fun p => cols.contains p.1)).map
      (fun p => (p.2, cell r p.1)) }

/-- The normalizer pipeline of `logs.py` `main` (lines 44–74), after the file
has been read and before it is written back out:
* no `Day` column → empty output, structural error;
* `Day` column present, no row matching `day_re` → empty output, warning;
* otherwise one canonical record per matching row, in original row order,
  with a skip note per mapped source column absent from the table. -/
def normalize (tbl : Table) : NormResult :=
  if "Day" ∈ tbl.columns then
    let matched := tbl.rows.filter (fun r => (dayExtract (dayLabel r)).isSome)
    if matched.isEmpty then
      { records := [], status := .emptyResult, skipped := [] }
    else
      { records := matched.map (rowRecord tbl.columns),
        status := .ok,
        skipped := (header_to_field.filter (fun p => !tbl.columns.contains p.1)).map
          (fun p => p.2) }
  else
    { records := [], status := .structuralInput, skipped := [] }

/-! ## The persistent store (`mcp_server.py`)

The PostgreSQL tables `daily_logs` and `daily_calorie_entries` are modelled
as lists of records in insertion order; `nextLogId` / `nextEntryId` model the
serial primary-key sequences.  `created_at` of a calorie entry is modelled by
its position in the insertion sequence, so `ORDER BY created_at` is the
stored order. -/

/-- `mcp_server.py` line 35: `USER_ID = 1`. -/
def USER_ID : Nat := 1

/-- One `daily_logs` row, restricted to the columns this code writes. -/
structure DailyLog where
  log_id : Nat
  user_id : Nat
  log_date : Int
  weight_kg : Option Rat
  mood : Option Int
  total_activity_min : Option Rat
deriving DecidableEq

/-- One `daily_calorie_entries` row. -/
structure CalorieEntry where
  entry_id : Nat
  log_id : Nat
  calories : Rat
  note : Option String
  created_at : Nat
deriving DecidableEq

/-- The store. -/
structure DB where
  logs : List DailyLog
  entries : List CalorieEntry
  nextLogId : Nat
  nextEntryId : Nat
deriving DecidableEq

/-- The empty store. -/
def emptyDB : DB :=
  { logs := [], entries := [], nextLogId := 0, nextEntryId := 0 }

/-- Row predicate `user_id = u AND log_date = d`. -/
def keyPred (u : Nat) (d : Int) (l : DailyLog) : Bool :=
  l.user_id == u && l.log_date == d

/-- `SELECT ... FROM daily_logs WHERE user_id = u AND log_date = d` under the
unique `(user_id, log_date)` key: the first matching row. -/
def findLog (db : DB) (u : Nat) (d : Int) : Option DailyLog :=
  db.logs.find? (keyPred u d)

/-- A fresh `daily_logs` row with only `log_date` populated. -/
def newLog (id : Nat) (d : Int) : DailyLog :=
  { log_id := id, user_id := USER_ID, log_date := d,
    weight_kg := none, mood := none, total_activity_min := none }

/-- The shared upsert statement (`INSERT INTO daily_logs (user_id, log_date)
VALUES ($1, $2) ON CONFLICT (user_id, log_date) DO UPDATE SET
log_date = EXCLUDED.log_date RETURNING log_id`): return the existing row's id
if one exists for the key (the conflicting update rewrites `log_date` with
the same value, a no-op), otherwise insert a fresh row and return its id. -/
def upsertDailyLog (db : DB) (d : Int) : DB × Nat :=
  match findLog db USER_ID d with
  | some l => (db, l.log_id)
  | none =>
    let db2 : DB :=
      { db with
        logs := db.logs ++ [newLog db.nextLogId d],
        nextLogId := db.nextLogId + 1 }
    (db2, db.nextLogId)

/-- The per-row effect of `UPDATE daily_logs SET ... WHERE log_id = $2 AND
user_id = $3`. -/
def updRow (id : Nat) (g : DailyLog → DailyLog) (l : DailyLog) : DailyLog :=
  if l.log_id == id && l.user_id == USER_ID then g l else l

/-- `UPDATE daily_logs SET ... WHERE log_id = id AND user_id = USER_ID`,
with `g` the `SET` clause. -/
def updateLog (db : DB) (id : Nat) (g : DailyLog → DailyLog) : DB :=
  { db with logs := db.logs.map (updRow id g) }

/-- `INSERT INTO daily_calorie_entries (log_id, calories, note) VALUES (...)`. -/
def insertEntry (db : DB) (logId : Nat) (c : Rat) (note : Option String) : DB :=
  let e : CalorieEntry :=
    { entry_id := db.nextEntryId,
      log_id := logId,
      calories := c,
      note := note,
      created_at := db.nextEntryId }
  { db with
    entries := db.entries ++ [e],
    nextEntryId := db.nextEntryId + 1 }

/-- The `{success, message}` JSON body together with the HTTP status code. -/
structure Resp where
  success : Bool
  message : String
  status : Nat
deriving DecidableEq

/-- A `JSONResponse({"success": True, "message": m})` (status 200). -/
def okResp (m : String) : Resp :=
  { success := true, message := m, status := 200 }

/-- A `JSONResponse({"success": False, "message": m}, status_code=400)`:
the `InvalidInput` rejection. -/
def badResp (m : String) : Resp :=
  { success := false, message := m, status := 400 }

/-! ## Logging operations (`mcp_server.py` lines 55–184)

Each handler takes the ambient `CURRENT_DATE` as the parameter `today` and
the parsed request payload; absent JSON keys are `none`. -/

/-- Payload of `POST /api/log/weight`. -/
structure WeightPayload where
  weight_kg : Option Rat
  date : Option Int
deriving DecidableEq

/-- Payload of `POST /api/log/calorie`. -/
structure CaloriePayload where
  calories : Option Rat
  note : Option String
  date : Option Int
deriving DecidableEq

/-- Payload of `POST /api/log/cardio`. -/
structure CardioPayload where
  duration_min : Option Rat
  date : Option Int
deriving DecidableEq

/-- Payload of `POST /api/log/mood`. -/
structure MoodPayload where
  mood : Option Int
  date : Option Int
deriving DecidableEq

/-- `api_log_weight` (lines 55–92): reject unless `weight_kg > 0`, else
upsert the daily log for the resolved date and overwrite `weight_kg`. -/
def api_log_weight (today : Int) (db : DB) (p : WeightPayload) : DB × Resp :=
  match p.weight_kg with
  | none => (db, badResp "weight_kg must be positive")
  | some w =>
    if w ≤ 0 then (db, badResp "weight_kg must be positive")
    else
      let r := upsertDailyLog db (p.date.getD today)
      (updateLog r.1 r.2 (fun l => { l with weight_kg := some w }),
       okResp "Weight logged successfully")

/-- `api_log_calorie` (lines 94–123): reject unless `calories ≥ 0`, else
upsert the daily log and append a calorie entry; the stored note is
`NULLIF(note or "", '')`: `none` for an absent or empty note, verbatim
otherwise. -/
def api_log_calorie (today : Int) (db : DB) (p : CaloriePayload) : DB × Resp :=
  match p.calories with
  | none => (db, badResp "calories must be non-negative")
  | some c =>
    if c < 0 then (db, badResp "calories must be non-negative")
    else
      let r := upsertDailyLog db (p.date.getD today)
      (insertEntry r.1 r.2 c
        (if p.note.getD "" = "" then none else some (p.note.getD "")),
       okResp "Calorie entry logged successfully")

/-- `api_log_cardio` (lines 125–154): reject unless `duration_min ≥ 0`, else
upsert the daily log and set
`total_activity_min = COALESCE(total_activity_min, 0) + duration`. -/
def api_log_cardio (today : Int) (db : DB) (p : CardioPayload) : DB × Resp :=
  match p.duration_min with
  | none => (db, badResp "duration_min must be non-negative")
  | some d =>
    if d < 0 then (db, badResp "duration_min must be non-negative")
    else
      let r := upsertDailyLog db (p.date.getD today)
      (updateLog r.1 r.2
        (fun l => { l with total_activity_min := some (l.total_activity_min.getD 0 + d) }),
       okResp "Cardio activity logged successfully")

/-- `api_log_mood` (lines 156–184): reject unless `mood` is present, else
upsert the daily log and overwrite `mood`. -/
def api_log_mood (today : Int) (db : DB) (p : MoodPayload) : DB × Resp :=
  match p.mood with
  | none => (db, badResp "mood is required")
  | some m =>
    let r := upsertDailyLog db (p.date.getD today)
    (updateLog r.1 r.2 (fun l => { l with mood := some m }),
     okResp "Mood logged successfully")

/-- Modelled from the spec: the database view `v_bmi` is not in `src/` (it
lives in the schema); per spec §3 it is a derived read-only view over Daily
Log history, so it has at most one row per `(user_id, log_date)` (the Daily
Log key is unique).  The numeric value is abstracted by the record's
`weight_kg`; only presence and per-date uniqueness matter to the trend
query. -/
def vBmi (db : DB) (u : Nat) (d : Int) : Option Rat :=
  (findLog db u d).bind DailyLog.weight_kg

/-- `api_bmi` (lines 37–53): `generate_series(CURRENT_DATE - 29, CURRENT_DATE)`
left-joined by date against `v_bmi` and ordered by date: 30 pairs of a date
and the (possibly null) value. -/
def api_bmi (today : Int) (db : DB) : List (Int × Option Rat) :=
  (List.range 30).map
    (fun i : Nat => (today - 29 + (i : Int), vBmi db USER_ID (today - 29 + (i : Int))))

/-- Number of `daily_logs` rows for one `(user_id, log_date)` key. -/
def keyCount (db : DB) (u : Nat) (d : Int) : Nat :=
  (db.logs.filter (keyPred u d)).length

theorem civilDays_unix_epoch : civilDays 1970 1 1 = 0 := by decide

theorem logs_insertEntry (db : DB) (id : Nat) (c : Rat) (n : Option String) :
    (insertEntry db id c n).logs = db.logs := rfl

theorem keyCount_insertEntry (db : DB) (id : Nat) (c : Rat) (n : Option String)
    (u : Nat) (d : Int) : keyCount (insertEntry db id c n) u d = keyCount db u d := rfl

theorem normalize_no_day {tbl : Table} (h : "Day" ∉ tbl.columns) :
    normalize tbl = { records := [], status := .structuralInput, skipped := [] } := by
  unfold normalize
  rw [if_neg h]

theorem normalize_no_match {tbl : Table} (hcol : "Day" ∈ tbl.columns)
    (h : ∀ r ∈ tbl.rows, dayExtract (dayLabel r) = none) :
    normalize tbl = { records := [], status := .emptyResult, skipped := [] } := by
  unfold normalize
  rw [if_pos hcol]
  have hm : tbl.rows.filter (fun r => (dayExtract (dayLabel r)).isSome) = [] := by
    rw [List.filter_eq_nil_iff]
    intro r hr
    simp [h r hr]
  rw [hm]
  rfl

theorem normalize_matched {tbl : Table} (hcol : "Day" ∈ tbl.columns)
    {r0 : Row} (hr0 : r0 ∈ tbl.rows) (hm : (dayExtract (dayLabel r0)).isSome) :
    normalize tbl =
      { records := (tbl.rows.filter (fun r => (dayExtract (dayLabel r)).isSome)).map
          (rowRecord tbl.columns),
        status := .ok,
        skipped := (header_to_field.filter (fun p => !tbl.columns.contains p.1)).map
          (fun p => p.2) } := by
  unfold normalize
  rw [if_pos hcol]
  have hne : tbl.rows.filter (fun r => (dayExtract (dayLabel r)).isSome) ≠ [] := by
    intro hnil
    rw [List.filter_eq_nil_iff] at hnil
    exact hnil r0 hr0 hm
  rw [if_neg (by simpa [List.isEmpty_iff] using hne)]

theorem normalize_records_log_date {tbl : Table} {rec : CanonRecord}
    (h : rec ∈ (normalize tbl).records) :
    ∃ r ∈ tbl.rows, ∃ n : Nat, dayExtract (dayLabel r) = some n ∧
      rec.log_date = start_date + ((n : Int) - 1) := by
  unfold normalize at h
  by_cases hcol : "Day" ∈ tbl.columns
  · rw [if_pos hcol] at h
    by_cases he : (tbl.rows.filter (fun r => (dayExtract (dayLabel r)).isSome)).isEmpty
    · rw [if_pos he] at h
      simp at h
    · rw [if_neg he] at h
      dsimp only at h
      obtain ⟨r, hr, hrec⟩ := List.mem_map.mp h
      obtain ⟨hrow, hsome⟩ := List.mem_filter.mp hr
      obtain ⟨n, hn⟩ := Option.isSome_iff_exists.mp hsome
      refine ⟨r, hrow, n, hn, ?_⟩
      rw [← hrec]
      unfold rowRecord
      rw [hn]
      rfl
  · rw [if_neg hcol] at h
    simp at h

/-! ## The claims -/

/-- C2: for every input row whose label matches `Day\s+(\d+)` (case-insensitive)
with day index `N`, the normalizer computes `log_date = epoch + (N - 1)` days
exactly, where the epoch is the fixed constant 2025-04-08; a day index of 0
yields the day before the epoch rather than being rejected. -/
theorem claim2_day_date_derivation :
    start_date = civilDays 2025 4 8 ∧
    (∀ tbl : Table, ∀ rec ∈ (normalize tbl).records,
      ∃ r ∈ tbl.rows, ∃ n : Nat, dayExtract (dayLabel r) = some n ∧
        rec.log_date = start_date + ((n : Int) - 1)) ∧
    dayExtract "Day 3" = some 3 ∧
    dayExtract "dAY  12" = some 12 ∧
    dayExtract "Day3" = none ∧
    (normalize { columns := ["Day"], rows := [[("Day", "Day 0")]] }).records =
      [{ log_date := start_date - 1, fields := [] }] := by
  refine ⟨rfl, ?_, by decide, by decide, by decide, by decide⟩
  intro tbl rec h
  exact normalize_records_log_date h

/-- C2 witness: the general clause applied to a one-row table. -/
theorem claim2_day_date_derivation_witness :
    ∃ r ∈ ([[("Day", "Day 3")]] : List Row), ∃ n : Nat,
      dayExtract (dayLabel r) = some n ∧
      ({ log_date := start_date + 2, fields := [] } : CanonRecord).log_date =
        start_date + ((n : Int) - 1) :=
  claim2_day_date_derivation.2.1 { columns := ["Day"], rows := [[("Day", "Day 3")]] }
    { log_date := start_date + 2, fields := [] } (by decide)

/-- C7: the normalizer's two empty outcomes are distinct and distinguishable:
a table lacking the `Day` column yields an empty output with the structural
error, a table with the column but zero matching rows yields an empty output
with the empty-result warning, and non-matching rows are dropped silently
(one matching row suffices for a normal run). -/
theorem claim7_normalizer_empty_outcomes :
    (∀ tbl : Table, "Day" ∉ tbl.columns →
      normalize tbl = { records := [], status := .structuralInput, skipped := [] }) ∧
    (∀ tbl : Table, "Day" ∈ tbl.columns →
      (∀ r ∈ tbl.rows, dayExtract (dayLabel r) = none) →
      normalize tbl = { records := [], status := .emptyResult, skipped := [] }) ∧
    NormStatus.structuralInput ≠ NormStatus.emptyResult ∧
    (∀ tbl : Table, ∀ r0 ∈ tbl.rows, "Day" ∈ tbl.columns →
      (dayExtract (dayLabel r0)).isSome → (normalize tbl).status = .ok) := by
  refine ⟨fun tbl h => normalize_no_day h, fun tbl hcol h => normalize_no_match hcol h,
    by decide, ?_⟩
  intro tbl r0 hr0 hcol hm
  rw [normalize_matched hcol hr0 hm]

/-- C7 witness: the three outcomes observed on concrete tables. -/
theorem claim7_normalizer_empty_outcomes_witness :
    normalize { columns := ["Weight"], rows := [] } =
        { records := [], status := .structuralInput, skipped := [] } ∧
      normalize { columns := ["Day"], rows := [[("Day", "hello")]] } =
        { records := [], status := .emptyResult, skipped := [] } ∧
      (normalize { columns := ["Day"], rows := [[("Day", "x")], [("Day", "Day 2")]] }).status =
        .ok :=
  ⟨claim7_normalizer_empty_outcomes.1 { columns := ["Weight"], rows := [] } (by decide),
    claim7_normalizer_empty_outcomes.2.1 { columns := ["Day"], rows := [[("Day", "hello")]] }
      (by decide) (by decide),
    claim7_normalizer_empty_outcomes.2.2.2 { columns := ["Day"], rows := [[("Day", "x")], [("Day", "Day 2")]] }
      [("Day", "Day 2")] (by decide) (by decide) (by decide)⟩

/-- C9: every emitted canonical record carries `log_date` first (a dedicated
field of the record) and then exactly the canonical fields whose source column
is present in the input table, in the fixed mapping's insertion order, with
one skip note per missing source column; the concrete row
`Day: "Day 3", Weight: "78.2", Notes: "felt good"` normalizes to
`log_date = 2025-04-10`, `weight_kg_txt = "78.2"`, `notes = "felt good"` with
the five other mapped fields absent and skipped. -/
theorem claim9_remapper_output :
    (∀ tbl : Table, ∀ rec ∈ (normalize tbl).records,
      rec.fields.map Prod.fst =
        (header_to_field.filter (fun p => tbl.columns.contains p.1)).map Prod.snd) ∧
    (∀ tbl : Table, (normalize tbl).status = .ok →
      (normalize tbl).skipped =
        (header_to_field.filter (fun p => !tbl.columns.contains p.1)).map Prod.snd) ∧
    normalize ⟨["Day", "Weight", "Notes"],
        [[("Day", "Day 3"), ("Weight", "78.2"), ("Notes", "felt good")]]⟩ =
      ⟨[⟨civilDays 2025 4 10,
          [("weight_kg_txt", some "78.2"), ("notes", some "felt good")]⟩],
        .ok,
        ["kcal_budgeted_txt", "kcal_estimated_txt", "exercise_txt",
          "fasted_cardio_txt", "mood_txt"]⟩ := by
  refine ⟨?_, ?_, by decide⟩
  · intro tbl rec h
    unfold normalize at h
    by_cases hcol : "Day" ∈ tbl.columns
    · rw [if_pos hcol] at h
      by_cases he : (tbl.rows.filter (fun r => (dayExtract (dayLabel r)).isSome)).isEmpty
      · rw [if_pos he] at h
        simp at h
      · rw [if_neg he] at h
        dsimp only at h
        obtain ⟨r, _, hrec⟩ := List.mem_map.mp h
        rw [← hrec]
        unfold rowRecord
        dsimp only
        rw [List.map_map]
        rfl
    · rw [if_neg hcol] at h
      simp at h
  · intro tbl hst
    unfold normalize at hst ⊢
    by_cases hcol : "Day" ∈ tbl.columns
    · rw [if_pos hcol] at hst ⊢
      by_cases he : (tbl.rows.filter (fun r => (dayExtract (dayLabel r)).isSome)).isEmpty
      · rw [if_pos he] at hst
        simp at hst
      · rw [if_neg he]
    · rw [if_neg hcol] at hst
      simp at hst

/-- C9 witness: the field-order clause applied to a concrete table. -/
theorem claim9_remapper_output_witness :
    ∀ rec ∈ (normalize ⟨["Day", "Notes"], [[("Day", "Day 1"), ("Notes", "n")]]⟩).records,
      rec.fields.map Prod.fst =
        (header_to_field.filter
          (fun p => (["Day", "Notes"] : List String).contains p.1)).map Prod.snd :=
  claim9_remapper_output.1 ⟨["Day", "Notes"], [[("Day", "Day 1"), ("Notes", "n")]]⟩

/-- C3: the BMI trend query always returns exactly 30 entries, in strictly
ascending date order, covering every day of the window from `today - 29` to
`today`, with a null value for every day that has no daily-log record — for
every possible store. -/
theorem claim3_bmi_trend_complete (today : Int) (db : DB) :
    (api_bmi today db).length = 30 ∧
    ((api_bmi today db).map Prod.fst).Pairwise (· < ·) ∧
    (∀ p ∈ api_bmi today db, findLog db USER_ID p.1 = none → p.2 = none) ∧
    (∀ d : Int, today - 29 ≤ d → d ≤ today → (d, vBmi db USER_ID d) ∈ api_bmi today db) := by
  refine ⟨by simp [api_bmi], ?_, ?_, ?_⟩
  · unfold api_bmi
    rw [List.map_map]
    apply List.pairwise_map.mpr
    apply (List.pairwise_lt_range 30).imp
    intro i j hij
    simp only [Function.comp]
    omega
  · intro p hp hnone
    obtain ⟨i, _, hi⟩ := List.mem_map.mp hp
    rw [← hi] at hnone ⊢
    simp only [vBmi, hnone, Option.bind_eq_bind, Option.none_bind]
  · intro d h1 h2
    apply List.mem_map.mpr
    refine ⟨(d - (today - 29)).toNat, List.mem_range.mpr (by omega), ?_⟩
    have hd : today - 29 + ((d - (today - 29)).toNat : Int) = d := by omega
    rw [hd]

/-- C3 witness: the gap clause applied on the empty store. -/
theorem claim3_bmi_trend_complete_witness :
    ((0 : Int), (none : Option Rat)).2 = none :=
  (claim3_bmi_trend_complete 0 emptyDB).2.2.1 (0, none) (by decide) (by decide)

/-- C6: every payload violating its constraint (weight absent or ≤ 0,
calories absent or negative, duration absent or negative, mood absent) is
rejected with the 400 `InvalidInput` response and mutates no state; in
particular weight −1 creates no record for a previously-absent date. -/
theorem claim6_reject_invalid (today : Int) (db : DB) :
    (∀ dp, api_log_weight today db { weight_kg := none, date := dp } =
      (db, badResp "weight_kg must be positive")) ∧
    (∀ w dp, w ≤ 0 → api_log_weight today db { weight_kg := some w, date := dp } =
      (db, badResp "weight_kg must be positive")) ∧
    (∀ n dp, api_log_calorie today db { calories := none, note := n, date := dp } =
      (db, badResp "calories must be non-negative")) ∧
    (∀ c n dp, c < 0 → api_log_calorie today db { calories := some c, note := n, date := dp } =
      (db, badResp "calories must be non-negative")) ∧
    (∀ dp, api_log_cardio today db { duration_min := none, date := dp } =
      (db, badResp "duration_min must be non-negative")) ∧
    (∀ dur dp, dur < 0 → api_log_cardio today db { duration_min := some dur, date := dp } =
      (db, badResp "duration_min must be non-negative")) ∧
    (∀ dp, api_log_mood today db { mood := none, date := dp } =
      (db, badResp "mood is required")) ∧
    (api_log_weight today emptyDB { weight_kg := some (-1 : Rat), date := none }).1.logs
      = [] := by
  refine ⟨fun dp => rfl, ?_, fun n dp => rfl, ?_, fun dp => rfl, ?_, fun dp => rfl, ?_⟩
  · intro w dp hw
    unfold api_log_weight
    dsimp only
    rw [if_pos hw]
  · intro c n dp hc
    unfold api_log_calorie
    dsimp only
    rw [if_pos hc]
  · intro dur dp hd
    unfold api_log_cardio
    dsimp only
    rw [if_pos hd]
  · unfold api_log_weight
    dsimp only
    rw [if_pos (by norm_num : (-1 : Rat) ≤ 0)]
    rfl

/-- C6 witness: the weight −1 rejection on the empty store. -/
theorem claim6_reject_invalid_witness :
    api_log_weight 0 emptyDB { weight_kg := some (-1 : Rat), date := none } =
      (emptyDB, badResp "weight_kg must be positive") :=
  (claim6_reject_invalid 0 emptyDB).2.1 (-1) none (by decide)

end HealthDash
